import Mathlib

/-!
Verification development for the bus_server repository: a shallow embedding of
the ingestion-and-aggregation pipeline (`bus_server/modules/data_processing.py`
and `bus_server/modules/routes.py`) together with theorems settling the frozen
claims about its specification.

Modelling conventions:
* Python runtime values flowing through the delay column are embedded as `PyVal`
  (string / int / float / bool / None), with Python floats modelled as exact
  rationals.
* Dates are modelled as integer day indices; Python's `str(date)` is injective
  on dates, so the day index itself serves as the date key.
* pandas DataFrames are embedded as lists of rows; a frame built by
  `pd.DataFrame([])` (empty fetch) has no columns, which is what makes column
  access on an all-empty concatenation raise `KeyError` in the source.
-/

namespace BusServer

/-- A Python value as it appears in the loosely-typed JSON records
(`data_processing.py` consumes the reference-service JSON directly). -/
inductive PyVal where
  | str (s : String)
  | int (n : Int)
  | float (q : ℚ)
  | bool (b : Bool)
  | none
  deriving DecidableEq

/-- An exact, not necessarily reduced fraction `num / den`, modelling the
float value of `timedelta.total_seconds()` exactly. -/
abbrev Frac := Int × Nat

/-- Fraction addition on unreduced pairs. -/
def fracAdd (a b : Frac) : Frac :=
  (a.1 * (b.2 : Int) + b.1 * (a.2 : Int), a.2 * b.2)

/-- Multiply a fraction by an integer weight (seconds per unit). -/
def fracScale (w : Int) (a : Frac) : Frac :=
  (a.1 * w, a.2)

/-- Python `int()` applied to the (exactly represented) float `num / den`:
truncation toward zero. -/
def fracTruncInt (a : Frac) : Int :=
  a.1.tdiv (a.2 : Int)

/-- The rational value of a fraction pair. -/
def fracVal (a : Frac) : ℚ :=
  (a.1 : ℚ) / (a.2 : ℚ)

/-- Digits-to-number accumulator (the numeric value of a digit run). -/
def natOfDigits (ds : List Char) : Nat :=
  ds.foldl (fun a c => a * 10 + (c.toNat - 48)) 0

/-- Parse a decimal number `[0-9]+([,.][0-9]+)?` from the front of the input,
returning its exact value as a fraction and the rest of the input.
Modelled from the number groups of the `isodate` ISO-8601 duration regex. -/
def parseNumber (cs : List Char) : Option (Frac × List Char) :=
  let ds := cs.takeWhile Char.isDigit
  let rest := cs.dropWhile Char.isDigit
  if ds = [] then Option.none
  else
    match rest with
    | c :: rest2 =>
      if c = '.' ∨ c = ',' then
        let fs := rest2.takeWhile Char.isDigit
        let rest3 := rest2.dropWhile Char.isDigit
        if fs = [] then Option.none
        else
          Option.some
            (((natOfDigits ds * 10 ^ fs.length + natOfDigits fs : Nat), 10 ^ fs.length), rest3)
      else Option.some (((natOfDigits ds : Int), 1), c :: rest2)
    | [] => Option.some (((natOfDigits ds : Int), 1), [])

/-- Try to consume one optional regex group `number` + designator letter
(e.g. `10M`); on mismatch the input is left untouched and the component is 0. -/
def tryComp (desig : Char) (cs : List Char) : Frac × List Char :=
  match parseNumber cs with
  | Option.some (q, c :: rest) => if c = desig then (q, rest) else ((0, 1), cs)
  | _ => ((0, 1), cs)

/-- Whether a character is a regex word character (`[A-Za-z0-9_]`), used for the
`(?!\b)` lookahead after `P` in the isodate duration regex. -/
def isWordChar (c : Char) : Bool :=
  c.isAlpha || c.isDigit || c = '_'

/-- Modelled from the spec (§4.2) and the external `isodate.parse_duration`
contract, which is not part of this repository: anchored match of
`sign? P years? months? weeks? days? (T hours? minutes? seconds?)?`, returning
the total number of seconds of the day/time part. Years and months never
contribute seconds (the isodate `Duration` object delegates `total_seconds` to
its embedded timedelta); a string that does not match the anchored pattern
fails to parse. -/
def parseDuration (s : String) : Option Frac :=
  let (sgn, cs1) : Int × List Char :=
    match s.toList with
    | '+' :: r => (1, r)
    | '-' :: r => (-1, r)
    | r => (1, r)
  match cs1 with
  | 'P' :: cs2 =>
    match cs2 with
    | [] => Option.none
    | c0 :: _ =>
      if ¬ isWordChar c0 then Option.none
      else
        let (_, csY) := tryComp 'Y' cs2
        let (_, csMo) := tryComp 'M' csY
        let (w, csW) := tryComp 'W' csMo
        let (d, csD) := tryComp 'D' csW
        let (h, m, sec, csEnd) : Frac × Frac × Frac × List Char :=
          match csD with
          | 'T' :: csT =>
            let (h, csH) := tryComp 'H' csT
            let (m, csM2) := tryComp 'M' csH
            let (sec, csS) := tryComp 'S' csM2
            (h, m, sec, csS)
          | r => ((0, 1), (0, 1), (0, 1), r)
        if csEnd = [] then
          Option.some
            (fracScale sgn
              (fracAdd (fracScale 604800 w)
                (fracAdd (fracScale 86400 d)
                  (fracAdd (fracScale 3600 h) (fracAdd (fracScale 60 m) sec)))))
        else Option.none
  | _ => Option.none

/-- `iso_duration_to_seconds` (data_processing.py lines 18-28): convert an
ISO-8601 duration string to integer seconds; a non-string or empty-string input
is returned as is, and a string that fails to parse is returned unchanged. -/
def iso_duration_to_seconds (v : PyVal) : PyVal :=
  match v with
  | PyVal.str s =>
    if s = "" then PyVal.str s
    else
      match parseDuration s with
      | Option.some q => PyVal.int (fracTruncInt q)
      | Option.none => PyVal.str s
  | v => v

/-- One raw record of the reference-service response
(`GET /cities/{id}/stats`, §6): a row of the DataFrame built by
`gather_city_data`. -/
structure RawRecord where
  departure_time : PyVal
  bus_type : PyVal
  passengers : PyVal
  delay : PyVal
  accident : PyVal
  deriving DecidableEq

/-- `gather_city_data` (data_processing.py lines 31-57), with the fetched JSON
array supplied as input: if the frame is empty it is returned as is, otherwise
the delay column is converted with `iso_duration_to_seconds`. -/
def gather_city_data (data : List RawRecord) : List RawRecord :=
  if data = [] then data
  else data.map (fun r => { r with delay := iso_duration_to_seconds r.delay })

/-- A row of a serialized frame: the five record fields in column order. -/
def rowOfRaw (r : RawRecord) : List PyVal :=
  [r.departure_time, r.bus_type, r.passengers, r.delay, r.accident]

/-- Modelled from the spec (§6): the external pandas/pyarrow parquet codec is
not part of this repository; the spec only requires a schema-preserving
columnar encoding whose integer, float, boolean and string fields round-trip
exactly. One cell is encoded as a type tag followed by its payload. -/
def encodeCell : PyVal → List Nat
  | PyVal.str s => 0 :: s.toList.length :: s.toList.map Char.toNat
  | PyVal.int n => [1, if n < 0 then 1 else 0, n.natAbs]
  | PyVal.float q => [2, if q.num < 0 then 1 else 0, q.num.natAbs, q.den]
  | PyVal.bool b => [3, if b then 1 else 0]
  | PyVal.none => [4]

/-- Encode one row: cell count followed by the encoded cells. -/
def encodeRow (r : List PyVal) : List Nat :=
  r.length :: (r.map encodeCell).flatten

/-- Modelled from the spec (§6): `DataFrame.to_parquet` — row count followed by
the encoded rows. -/
def encodeDF (df : List (List PyVal)) : List Nat :=
  df.length :: (df.map encodeRow).flatten

/-- Decode `n` characters from the byte stream. -/
def decodeChars : Nat → List Nat → Option (List Char × List Nat)
  | 0, l => Option.some ([], l)
  | _ + 1, [] => Option.none
  | n + 1, c :: l =>
    match decodeChars n l with
    | Option.some (cs, rest) => Option.some (Char.ofNat c :: cs, rest)
    | Option.none => Option.none

/-- Decode one cell from the byte stream. -/
def decodeCell : List Nat → Option (PyVal × List Nat)
  | 0 :: len :: l =>
    match decodeChars len l with
    | Option.some (cs, rest) => Option.some (PyVal.str (String.mk cs), rest)
    | Option.none => Option.none
  | 1 :: sg :: n :: l =>
    Option.some (PyVal.int (if sg = 1 then -(n : Int) else (n : Int)), l)
  | 2 :: sg :: num :: den :: l =>
    Option.some
      (PyVal.float (if sg = 1 then -((num : ℚ) / (den : ℚ)) else (num : ℚ) / (den : ℚ)), l)
  | 3 :: b :: l => Option.some (PyVal.bool (b = 1), l)
  | 4 :: l => Option.some (PyVal.none, l)
  | _ => Option.none

/-- Decode `n` cells from the byte stream. -/
def decodeCells : Nat → List Nat → Option (List PyVal × List Nat)
  | 0, l => Option.some ([], l)
  | n + 1, l =>
    match decodeCell l with
    | Option.some (c, l2) =>
      match decodeCells n l2 with
      | Option.some (cs, rest) => Option.some (c :: cs, rest)
      | Option.none => Option.none
    | Option.none => Option.none

/-- Decode one row (cell count then cells). -/
def decodeRow (l : List Nat) : Option (List PyVal × List Nat) :=
  match l with
  | [] => Option.none
  | n :: l2 => decodeCells n l2

/-- Decode `n` rows from the byte stream. -/
def decodeRows : Nat → List Nat → Option (List (List PyVal) × List Nat)
  | 0, l => Option.some ([], l)
  | n + 1, l =>
    match decodeRow l with
    | Option.some (r, l2) =>
      match decodeRows n l2 with
      | Option.some (rs, rest) => Option.some (r :: rs, rest)
      | Option.none => Option.none
    | Option.none => Option.none

/-- Modelled from the spec (§6): `pd.read_parquet` — decode a whole frame; the
payload must be consumed exactly. -/
def decodeDF (l : List Nat) : Option (List (List PyVal)) :=
  match l with
  | [] => Option.none
  | n :: l2 =>
    match decodeRows n l2 with
    | Option.some (df, []) => Option.some df
    | _ => Option.none

/-- The storage backend key space (§4.1): deterministic string keys mapping to
raw partition payloads. Payloads are byte lists produced by the codec. -/
abbrev ByteStore := List (String × List Nat)

/-- Create-or-overwrite write at a key (dict/object-store semantics: an
existing key is replaced in place, a new key is appended). -/
def storePut (st : ByteStore) (k : String) (v : List Nat) : ByteStore :=
  match st with
  | [] => [(k, v)]
  | (k', v') :: rest => if k' = k then (k, v) :: rest else (k', v') :: storePut rest k v

/-- Read the payload at a key. -/
def storeGet (st : ByteStore) (k : String) : Option (List Nat) :=
  match st with
  | [] => Option.none
  | (k', v') :: rest => if k' = k then Option.some v' else storeGet rest k

/-- Read a partition back as a record frame (read + parquet decode). -/
def readFrame (st : ByteStore) (k : String) : Option (List (List PyVal)) :=
  match storeGet st k with
  | Option.some bs => decodeDF bs
  | Option.none => Option.none

/-- The partition key `f"{country}/{requested_date}/{city}/data.parquet"`
(data_processing.py lines 69 and 91), with the date printed as its day
index. -/
def partitionKey (country : String) (requested_date : Int) (city : String) : String :=
  country ++ "/" ++ toString requested_date ++ "/" ++ city ++ "/data.parquet"

/-- `process_data_task_local` (data_processing.py lines 60-76), with the
fetched response supplied as input: gather the city frame, serialize it, and
write it wholesale at the city's partition key. -/
def process_data_task_local (requested_date : Int) (_city_id : Int)
    (city country : String) (fetched : List RawRecord) (local_path : ByteStore) :
    ByteStore :=
  let city_df := gather_city_data fetched
  storePut local_path (partitionKey country requested_date city)
    (encodeDF (city_df.map rowOfRaw))

/-- `process_data_task_s3` (data_processing.py lines 79-95): identical to the
local task up to the backend handle; it writes the same key into the bucket. -/
def process_data_task_s3 (requested_date : Int) (_city_id : Int)
    (city country : String) (fetched : List RawRecord) (client : ByteStore) :
    ByteStore :=
  let city_df := gather_city_data fetched
  storePut client (partitionKey country requested_date city)
    (encodeDF (city_df.map rowOfRaw))

/-- A city as served by `GET /cities` of the reference service (§6). -/
structure City where
  id : Int
  name : String
  country : String
  deriving DecidableEq

/-- The partition keys written by the background tasks that one
`process_request` call (routes.py lines 59-73) schedules for a requested date:
one task per city, writing `f"{country}/{date}/{city}/data.parquet"`. -/
def scheduledKeys (cities : List City) (requested_date : Int) : List String :=
  cities.map (fun c => partitionKey c.country requested_date c.name)

/-- A typed Record (§3) as it participates in aggregation arithmetic: the
columns `get_country_stats_*` reads, with `delay` in the numeric case (the
spec leaves non-numeric delays undefined in aggregation). -/
structure StatRecord where
  bus_type : String
  passengers : Int
  delay : Int
  accident : Bool
  deriving DecidableEq

/-- A partition key of the local backend: directory levels
`country / date / city`. -/
structure PartKey where
  country : String
  date : Int
  city : String
  deriving DecidableEq

/-- The local storage tree, with partitions already decoded to record frames.
An empty fetch stores a frame with zero rows (and, in pandas, no columns). -/
abbrev LocalStore := List (PartKey × List StatRecord)

/-- The `rglob("*/*.parquet")` listing of `local_path/country/date`
(data_processing.py lines 106-107): every city partition under that prefix, as
decoded frames. -/
def listPartitionFiles (st : LocalStore) (country : String) (requested_date : Int) :
    List (List StatRecord) :=
  (st.filter (fun kv => kv.1.country = country ∧ kv.1.date = requested_date)).map
    (fun kv => kv.2)

/-- The derived Summary (§3): `number_of_buses`, `total_passengers`,
`total_accidents`, `average_delay`. The Python float mean is modelled as an
exact rational. -/
structure Summary where
  number_of_buses : Nat
  total_passengers : Int
  total_accidents : Nat
  average_delay : ℚ
  deriving DecidableEq

/-- The four column statistics of `get_country_stats_*` over one concatenated
frame: `nunique` of `bus-type`, `sum` of `passengers`, `sum` of the boolean
`accident` column, and `mean` of `delay`. -/
def frameSummary (country_wide_data : List StatRecord) : Summary :=
  { number_of_buses := (country_wide_data.map (fun r => r.bus_type)).dedup.length
    total_passengers := (country_wide_data.map (fun r => r.passengers)).sum
    total_accidents := (country_wide_data.filter (fun r => r.accident)).length
    average_delay :=
      ((country_wide_data.map (fun r => r.delay)).sum : ℚ) / (country_wide_data.length : ℚ) }

/-- `get_country_stats_local` (data_processing.py lines 98-127): list the city
partitions under `country/date`; an empty listing returns the empty dict
(absent). Otherwise every partition is read and concatenated; in the source
the concatenation of frames that were all written from empty fetches has no
columns, so the column access `country_wide_data["bus-type"]` raises
`KeyError` — modelled as the error branch. -/
def get_country_stats_local (country : String) (requested_date : Int)
    (local_path : LocalStore) : Except String (Option Summary) :=
  let files := listPartitionFiles local_path country requested_date
  if files = [] then Except.ok Option.none
  else
    let country_wide_data := files.flatten
    if country_wide_data = [] then Except.error "KeyError: bus-type"
    else Except.ok (Option.some (frameSummary country_wide_data))

/-- The object-store bucket, with stored frames already decoded. -/
abbrev S3Store := List (String × List StatRecord)

/-- The key prefix `f"{country}/{requested_date}"` used by the bucket
listing. -/
def s3KeyPfx (country : String) (requested_date : Int) : String :=
  country ++ "/" ++ toString requested_date

/-- The `list_objects_v2(Prefix=f"{country}/{requested_date}")` listing
(data_processing.py lines 140-143): the keys under the country/date key
prefix. -/
def s3ListKeys (client : S3Store) (country : String) (requested_date : Int) :
    List String :=
  (client.filter (fun kv =>
      (s3KeyPfx country requested_date).toList.isPrefixOf kv.1.toList)).map
    (fun kv => kv.1)

/-- The frames read back from the listed keys (`get_object` on a listed key
returns the stored object). -/
def s3Frames (client : S3Store) (country : String) (requested_date : Int) :
    List (List StatRecord) :=
  (client.filter (fun kv =>
      (s3KeyPfx country requested_date).toList.isPrefixOf kv.1.toList)).map
    (fun kv => kv.2)

/-- `get_country_stats_s3` (data_processing.py lines 130-166): the same
aggregation as the local variant over the bucket listing. -/
def get_country_stats_s3 (country : String) (requested_date : Int)
    (client : S3Store) : Except String (Option Summary) :=
  let files := s3Frames client country requested_date
  if files = [] then Except.ok Option.none
  else
    let country_wide_data := files.flatten
    if country_wide_data = [] then Except.error "KeyError: bus-type"
    else Except.ok (Option.some (frameSummary country_wide_data))

/-- Spec-side definition (§4.4): count of distinct `bus_type` values across the
pooled record set, stated with `Finset` cardinality. -/
def specNumberOfBuses (pool : List StatRecord) : Nat :=
  (pool.map (fun r => r.bus_type)).toFinset.card

/-- Spec-side definition (§4.4): sum of `passengers` across the pooled
record set. -/
def specTotalPassengers (pool : List StatRecord) : Int :=
  (pool.map (fun r => r.passengers)).sum

/-- Spec-side definition (§4.4): count of pooled records with
`accident = true`. -/
def specTotalAccidents (pool : List StatRecord) : Nat :=
  pool.countP (fun r => r.accident)

/-- Spec-side definition (§4.4): arithmetic mean of `delay_seconds` over all
individual pooled records. -/
def specAverageDelay (pool : List StatRecord) : ℚ :=
  ((pool.map (fun r => (r.delay : ℚ))).sum) / (pool.length : ℚ)

/-- The countries enumerated by the range endpoint (routes.py line 125): the
top-level directories of the storage root, i.e. the distinct country names
present in the store. -/
def countriesOf (st : LocalStore) : List String :=
  (st.map (fun kv => kv.1.country)).dedup

/-- The dates the range query visits (routes.py lines 135-137):
`from_date + n` for `n in range((to_date - from_date).days + 1)` — empty when
the range is reversed. -/
def rangeDates (from_date to_date : Int) : List Int :=
  (List.range (to_date - from_date + 1).toNat).map (fun (n : Nat) => from_date + (n : Int))

/-- A per-country inner mapping of the range response: date key to the raw
per-day result, where the empty dict returned for an absent day is the
`Option.none` marker. -/
abbrev DayMap := List (Int × Option Summary)

/-- The nested range response `country -> date -> per-day result`, as an
insertion-ordered dictionary. -/
abbrev RangeResp := List (String × DayMap)

/-- Set a key of an insertion-ordered inner dict (update in place or append:
Python dict assignment). -/
def setInner (inner : DayMap) (k : Int) (v : Option Summary) : DayMap :=
  match inner with
  | [] => [(k, v)]
  | (k', v') :: rest =>
    if k' = k then (k, v) :: rest else (k', v') :: setInner rest k v

/-- `response[country][str(date)] = v` with the `KeyError` fallback that first
creates `response[country] = {}` (routes.py lines 141-145). -/
def respSet (resp : RangeResp) (c : String) (k : Int) (v : Option Summary) :
    RangeResp :=
  match resp with
  | [] => [(c, [(k, v)])]
  | (c', inner) :: rest =>
    if c' = c then (c, setInner inner k v) :: rest else (c', inner) :: respSet rest c k v

/-- The inner loop of `country_stats` (routes.py lines 138-145): one pass over
the countries for a fixed date; a raised exception aborts the request. -/
def loopCountries (f : String → Int → Except String (Option Summary))
    (d : Int) (cs : List String) (resp : RangeResp) : Except String RangeResp :=
  match cs with
  | [] => Except.ok resp
  | c :: rest =>
    match f c d with
    | Except.error e => Except.error e
    | Except.ok v => loopCountries f d rest (respSet resp c d v)

/-- The outer loop of `country_stats` (routes.py lines 135-145): one pass per
date of the range. -/
def loopDates (f : String → Int → Except String (Option Summary))
    (cs : List String) (ds : List Int) (resp : RangeResp) : Except String RangeResp :=
  match ds with
  | [] => Except.ok resp
  | d :: rest =>
    match loopCountries f d cs resp with
    | Except.error e => Except.error e
    | Except.ok r => loopDates f cs rest r

/-- The `country_stats` endpoint body (routes.py lines 106-147) over the local
backend: enumerate the stored countries, then fill the nested response over
the inclusive date range. -/
def country_stats (st : LocalStore) (from_date to_date : Int) :
    Except String RangeResp :=
  loopDates (fun c d => get_country_stats_local c d st) (countriesOf st)
    (rangeDates from_date to_date) []

/-- The raw payload an `Except.ok` carries (the per-day dict the endpoint
stores into the response; errors never reach the response). -/
def okValue (e : Except String (Option Summary)) : Option Summary :=
  match e with
  | Except.ok v => v
  | Except.error _ => Option.none

/-- The per-day value the range endpoint stores for one country and date. -/
def dayValue (st : LocalStore) (c : String) (d : Int) : Option Summary :=
  okValue (get_country_stats_local c d st)

/-- Fixture: the record `{bus-type: "BUS-A", passengers: 10, delay: 600,
accident: false}` of the repository's own tests. -/
def exRecA : StatRecord :=
  { bus_type := "BUS-A", passengers := 10, delay := 600, accident := false }

/-- Fixture: the record `{bus-type: "BUS-B", passengers: 20, delay: 1200,
accident: true}` of the repository's own tests. -/
def exRecB : StatRecord :=
  { bus_type := "BUS-B", passengers := 20, delay := 1200, accident := true }

/-- Fixture: a store holding one country "A" with one partition on day 0 and
nothing on day 1. -/
def exDayStore : LocalStore :=
  [({ country := "A", date := 0, city := "X" }, [exRecA])]

/-- Fixture: the spec's merge-correctness layout — two one-record city
partitions for the same country and date. -/
def exMergeStore : LocalStore :=
  [({ country := "C", date := 0, city := "CityA" }, [exRecA]),
   ({ country := "C", date := 0, city := "CityB" }, [exRecB])]

/-- Fixture: the same layout as `exMergeStore` in the object-store bucket. -/
def exMergeBucket : S3Store :=
  [("C/0/CityA/data.parquet", [exRecA]),
   ("C/0/CityB/data.parquet", [exRecB])]

end BusServer

namespace BusServer

theorem decodeChars_encode (cs : List Char) (rest : List Nat) :
    decodeChars cs.length (cs.map Char.toNat ++ rest) = Option.some (cs, rest) := by
  induction cs with
  | nil => rfl
  | cons c cs ih => simp [decodeChars, ih, Char.ofNat_toNat]

theorem decodeCell_encode (v : PyVal) (rest : List Nat) :
    decodeCell (encodeCell v ++ rest) = Option.some (v, rest) := by
  cases v with
  | str s =>
    obtain ⟨data⟩ := s
    simp [encodeCell, decodeCell, String.toList, decodeChars_encode]
  | int n =>
    rcases lt_or_le n 0 with h | h
    · have hn : ((n.natAbs : Int)) = -n := Int.ofNat_natAbs_of_nonpos (le_of_lt h)
      simp only [encodeCell, if_pos h, decodeCell, List.cons_append, List.nil_append]
      simp [hn]
    · have hn : ((n.natAbs : Int)) = n := Int.natAbs_of_nonneg h
      have h0 : (0 : Nat) ≠ 1 := by decide
      simp only [encodeCell, if_neg (not_lt.mpr h), decodeCell, List.cons_append,
        List.nil_append]
      simp [h0, hn]
  | float q =>
    rcases lt_or_le q.num 0 with h | h
    · have hn : ((q.num.natAbs : ℚ)) = -(q.num : ℚ) := by
        rw [Int.cast_natAbs, abs_of_neg h]
        push_cast
        ring
      simp only [encodeCell, if_pos h, decodeCell, List.cons_append, List.nil_append]
      simp only [Option.some.injEq, Prod.mk.injEq, PyVal.float.injEq, and_true, if_pos rfl]
      rw [hn, neg_div, neg_neg]
      exact Rat.num_div_den q
    · have hn : ((q.num.natAbs : ℚ)) = (q.num : ℚ) := by
        rw [Int.cast_natAbs, abs_of_nonneg h]
      have h0 : (0 : Nat) ≠ 1 := by decide
      simp only [encodeCell, if_neg (not_lt.mpr h), decodeCell, List.cons_append,
        List.nil_append]
      simp only [Option.some.injEq, Prod.mk.injEq, PyVal.float.injEq, and_true, if_neg h0]
      rw [hn]
      exact Rat.num_div_den q
  | bool b => cases b <;> simp [encodeCell, decodeCell]
  | none => rfl

theorem decodeCells_encode (rs : List PyVal) (rest : List Nat) :
    decodeCells rs.length ((rs.map encodeCell).flatten ++ rest) =
      Option.some (rs, rest) := by
  induction rs with
  | nil => rfl
  | cons r rs ih =>
    simp only [List.map_cons, List.flatten_cons, List.length_cons, List.append_assoc]
    simp [decodeCells, decodeCell_encode, ih]

theorem decodeRow_encode (r : List PyVal) (rest : List Nat) :
    decodeRow (encodeRow r ++ rest) = Option.some (r, rest) := by
  simp [encodeRow, decodeRow, decodeCells_encode]

theorem decodeRows_encode (df : List (List PyVal)) (rest : List Nat) :
    decodeRows df.length ((df.map encodeRow).flatten ++ rest) =
      Option.some (df, rest) := by
  induction df with
  | nil => rfl
  | cons r df ih =>
    simp only [List.map_cons, List.flatten_cons, List.length_cons, List.append_assoc]
    simp [decodeRows, decodeRow_encode, ih]

theorem decodeDF_encode (df : List (List PyVal)) :
    decodeDF (encodeDF df) = Option.some df := by
  have h := decodeRows_encode df []
  rw [List.append_nil] at h
  simp [encodeDF, decodeDF, h]

theorem storeGet_storePut (st : ByteStore) (k : String) (v : List Nat) :
    storeGet (storePut st k v) k = Option.some v := by
  induction st with
  | nil => simp [storePut, storeGet]
  | cons kv rest ih =>
    obtain ⟨k', v'⟩ := kv
    by_cases h : k' = k
    · simp [storePut, storeGet, h]
    · simp [storePut, storeGet, h, ih]

/-- C4: the duration conversion maps "PT10M" to 600, "PT1H" to 3600,
"PT1H30M" to 5400, "P1DT1H" to 90000, the empty string to the empty string,
the unparseable string "invalid" to "invalid", and returns every non-string
input (int, float, bool, None) unchanged. -/
theorem duration_conversion_values :
    iso_duration_to_seconds (PyVal.str "PT10M") = PyVal.int 600 ∧
    iso_duration_to_seconds (PyVal.str "PT1H") = PyVal.int 3600 ∧
    iso_duration_to_seconds (PyVal.str "PT1H30M") = PyVal.int 5400 ∧
    iso_duration_to_seconds (PyVal.str "P1DT1H") = PyVal.int 90000 ∧
    iso_duration_to_seconds (PyVal.str "") = PyVal.str "" ∧
    iso_duration_to_seconds (PyVal.str "invalid") = PyVal.str "invalid" ∧
    (∀ n : Int, iso_duration_to_seconds (PyVal.int n) = PyVal.int n) ∧
    (∀ q : ℚ, iso_duration_to_seconds (PyVal.float q) = PyVal.float q) ∧
    (∀ b : Bool, iso_duration_to_seconds (PyVal.bool b) = PyVal.bool b) ∧
    iso_duration_to_seconds PyVal.none = PyVal.none :=
  ⟨by decide, by decide, by decide, by decide, by decide, by decide,
    fun _ => rfl, fun _ => rfl, fun _ => rfl, rfl⟩

/-- C5: the delay-field conversion is total and returns the original value
unchanged on every non-string, on the empty string, and on every string that
fails to parse as a duration; applying it over a fetched record set (the
`gather_city_data` column transform) is likewise total and per-record, so the
fetch is never aborted. -/
theorem delay_conversion_passthrough_total (s : String)
    (hfail : parseDuration s = Option.none) :
    iso_duration_to_seconds (PyVal.str s) = PyVal.str s ∧
    (∀ n : Int, iso_duration_to_seconds (PyVal.int n) = PyVal.int n) ∧
    (∀ q : ℚ, iso_duration_to_seconds (PyVal.float q) = PyVal.float q) ∧
    (∀ b : Bool, iso_duration_to_seconds (PyVal.bool b) = PyVal.bool b) ∧
    iso_duration_to_seconds PyVal.none = PyVal.none ∧
    (∀ data : List RawRecord,
      gather_city_data data =
        data.map (fun r => { r with delay := iso_duration_to_seconds r.delay })) := by
  refine ⟨?_, fun _ => rfl, fun _ => rfl, fun _ => rfl, rfl, ?_⟩
  · by_cases hs : s = "" <;> simp [iso_duration_to_seconds, hs, hfail]
  · intro data
    unfold gather_city_data
    by_cases hd : data = [] <;> simp [hd]

/-- Witness for C5 at the unparseable string "invalid". -/
theorem delay_conversion_passthrough_total_witness :
    iso_duration_to_seconds (PyVal.str "invalid") = PyVal.str "invalid" ∧
    (∀ n : Int, iso_duration_to_seconds (PyVal.int n) = PyVal.int n) ∧
    (∀ q : ℚ, iso_duration_to_seconds (PyVal.float q) = PyVal.float q) ∧
    (∀ b : Bool, iso_duration_to_seconds (PyVal.bool b) = PyVal.bool b) ∧
    iso_duration_to_seconds PyVal.none = PyVal.none ∧
    (∀ data : List RawRecord,
      gather_city_data data =
        data.map (fun r => { r with delay := iso_duration_to_seconds r.delay })) :=
  delay_conversion_passthrough_total "invalid" (by decide)

/-- C9: writing a record set to a partition and reading that partition back
returns it field-for-field equal, for any row count including zero, with
integer, float, boolean and string cells round-tripping exactly. -/
theorem partition_round_trip (st : ByteStore) (k : String) (df : List (List PyVal)) :
    readFrame (storePut st k (encodeDF df)) k = Option.some df := by
  simp [readFrame, storeGet_storePut, decodeDF_encode]

/-- C6: a (city, date) whose fetch returned an empty record set still gets its
write: afterwards a partition holding zero records exists at that city's key,
under both the local and the s3 task. -/
theorem empty_fetch_writes_empty_partition (requested_date city_id : Int)
    (city country : String) (local_path client : ByteStore)
    (fetched : List RawRecord) (h : fetched = []) :
    readFrame (process_data_task_local requested_date city_id city country fetched
        local_path) (partitionKey country requested_date city) = Option.some [] ∧
    readFrame (process_data_task_s3 requested_date city_id city country fetched
        client) (partitionKey country requested_date city) = Option.some [] := by
  subst h
  constructor <;>
    simp [process_data_task_local, process_data_task_s3, gather_city_data, readFrame,
      storeGet_storePut, decodeDF_encode]

/-- Witness for C6: an empty fetch against an empty store on day 0. -/
theorem empty_fetch_writes_empty_partition_witness :
    readFrame (process_data_task_local 0 1 "X" "C" [] []) (partitionKey "C" 0 "X") =
      Option.some [] ∧
    readFrame (process_data_task_s3 0 1 "X" "C" [] []) (partitionKey "C" 0 "X") =
      Option.some [] :=
  empty_fetch_writes_empty_partition 0 1 "X" "C" [] [] [] rfl

theorem frameSummary_eq_spec (pool : List StatRecord) :
    frameSummary pool =
      { number_of_buses := specNumberOfBuses pool
        total_passengers := specTotalPassengers pool
        total_accidents := specTotalAccidents pool
        average_delay := specAverageDelay pool } := by
  unfold frameSummary specNumberOfBuses specTotalPassengers specTotalAccidents
    specAverageDelay
  rw [List.card_toFinset, List.countP_eq_length_filter]

theorem frameSummary_perm {l1 l2 : List StatRecord} (h : l1.Perm l2) :
    frameSummary l1 = frameSummary l2 := by
  unfold frameSummary
  have hd : ((l1.map (fun r => r.bus_type)).dedup).length =
      ((l2.map (fun r => r.bus_type)).dedup).length :=
    ((h.map _).dedup).length_eq
  have hs : (l1.map (fun r => r.passengers)).sum = (l2.map (fun r => r.passengers)).sum :=
    (h.map _).sum_eq
  have ha : (l1.filter (fun r => r.accident)).length =
      (l2.filter (fun r => r.accident)).length :=
    (h.filter _).length_eq
  have hds : (l1.map (fun r => (r.delay : ℚ))).sum = (l2.map (fun r => (r.delay : ℚ))).sum :=
    (h.map _).sum_eq
  have hl : l1.length = l2.length := h.length_eq
  rw [hd, hs, ha, hds, hl]

/-- C3: a (country, date) whose storage listing is empty makes `statsForDay`
return absent (the empty dict), not an error and not a zero-valued Summary,
under both backends. -/
theorem empty_listing_returns_absent (local_path : LocalStore) (client : S3Store)
    (country : String) (requested_date : Int)
    (h1 : listPartitionFiles local_path country requested_date = [])
    (h2 : s3ListKeys client country requested_date = []) :
    get_country_stats_local country requested_date local_path =
      Except.ok Option.none ∧
    get_country_stats_s3 country requested_date client = Except.ok Option.none := by
  constructor
  · simp [get_country_stats_local, h1]
  · have hf :
        client.filter (fun kv =>
          (s3KeyPfx country requested_date).toList.isPrefixOf kv.1.toList) = [] := by
      unfold s3ListKeys at h2
      exact List.map_eq_nil_iff.mp h2
    have hframes : s3Frames client country requested_date = [] := by
      unfold s3Frames
      rw [hf]
      exact List.map_nil
    simp [get_country_stats_s3, hframes]

/-- Witness for C3: empty stores on both backends. -/
theorem empty_listing_returns_absent_witness :
    get_country_stats_local "X" 0 [] = Except.ok Option.none ∧
    get_country_stats_s3 "X" 0 [] = Except.ok Option.none :=
  empty_listing_returns_absent [] [] "X" 0 rfl rfl

/-- C10: a listing that is non-empty but whose partitions all hold zero
records (as written after empty fetches) makes `statsForDay` raise (the
pooled frame has no columns, so the `bus-type` column access raises
`KeyError`), rather than return absent or a Summary. -/
theorem all_empty_partitions_raise (local_path : LocalStore) (country : String)
    (requested_date : Int)
    (h1 : listPartitionFiles local_path country requested_date ≠ [])
    (h2 : (listPartitionFiles local_path country requested_date).flatten = []) :
    ∃ msg, get_country_stats_local country requested_date local_path =
      Except.error msg :=
  ⟨"KeyError: bus-type", by simp [get_country_stats_local, h1, h2]⟩

/-- Witness for C10: one stored partition with zero records. -/
theorem all_empty_partitions_raise_witness :
    ∃ msg, get_country_stats_local "X" 0 [({ country := "X", date := 0, city := "C" }, [])] =
      Except.error msg :=
  all_empty_partitions_raise [({ country := "X", date := 0, city := "C" }, [])] "X" 0
    (by decide) (by decide)

/-- C1: over a listing whose pooled record set is non-empty, `statsForDay`
returns exactly the Summary of the pooled records — distinct `bus_type` count,
passenger sum, accident count, and the arithmetic mean of `delay_seconds` over
all individual pooled records — under both backends; and the local result is
invariant under any redistribution (permutation) of the pooled records across
partitions. -/
theorem stats_merge_pooled (local_path : LocalStore) (client : S3Store)
    (country : String) (requested_date : Int)
    (h1 : (listPartitionFiles local_path country requested_date).flatten ≠ [])
    (h2 : (s3Frames client country requested_date).flatten ≠ []) :
    get_country_stats_local country requested_date local_path =
      Except.ok (Option.some
        { number_of_buses :=
            specNumberOfBuses ((listPartitionFiles local_path country requested_date).flatten)
          total_passengers :=
            specTotalPassengers ((listPartitionFiles local_path country requested_date).flatten)
          total_accidents :=
            specTotalAccidents ((listPartitionFiles local_path country requested_date).flatten)
          average_delay :=
            specAverageDelay ((listPartitionFiles local_path country requested_date).flatten) }) ∧
    get_country_stats_s3 country requested_date client =
      Except.ok (Option.some
        { number_of_buses :=
            specNumberOfBuses ((s3Frames client country requested_date).flatten)
          total_passengers :=
            specTotalPassengers ((s3Frames client country requested_date).flatten)
          total_accidents :=
            specTotalAccidents ((s3Frames client country requested_date).flatten)
          average_delay :=
            specAverageDelay ((s3Frames client country requested_date).flatten) }) ∧
    (∀ other : LocalStore,
      ((listPartitionFiles other country requested_date).flatten).Perm
          ((listPartitionFiles local_path country requested_date).flatten) →
      get_country_stats_local country requested_date other =
        get_country_stats_local country requested_date local_path) := by
  have hfne : listPartitionFiles local_path country requested_date ≠ [] := by
    intro hf
    exact h1 (by simp [hf])
  have hsne : s3Frames client country requested_date ≠ [] := by
    intro hf
    exact h2 (by simp [hf])
  refine ⟨?_, ?_, ?_⟩
  · rw [show get_country_stats_local country requested_date local_path =
        Except.ok (Option.some
          (frameSummary ((listPartitionFiles local_path country requested_date).flatten)))
      from by simp [get_country_stats_local, hfne, h1]]
    rw [frameSummary_eq_spec]
  · rw [show get_country_stats_s3 country requested_date client =
        Except.ok (Option.some
          (frameSummary ((s3Frames client country requested_date).flatten)))
      from by simp [get_country_stats_s3, hsne, h2]]
    rw [frameSummary_eq_spec]
  · intro other hperm
    have h1' : (listPartitionFiles other country requested_date).flatten ≠ [] := by
      intro he
      rw [he] at hperm
      exact h1 hperm.symm.eq_nil
    have hfne' : listPartitionFiles other country requested_date ≠ [] := by
      intro hf
      exact h1' (by simp [hf])
    rw [show get_country_stats_local country requested_date other =
        Except.ok (Option.some
          (frameSummary ((listPartitionFiles other country requested_date).flatten)))
      from by simp [get_country_stats_local, hfne', h1'],
      show get_country_stats_local country requested_date local_path =
        Except.ok (Option.some
          (frameSummary ((listPartitionFiles local_path country requested_date).flatten)))
      from by simp [get_country_stats_local, hfne, h1]]
    rw [frameSummary_perm hperm]

/-- Witness for C1: the spec's merge fixture — two one-record partitions under
one country/date on each backend. -/
theorem stats_merge_pooled_witness :
    get_country_stats_local "C" 0 exMergeStore =
      Except.ok (Option.some
        { number_of_buses :=
            specNumberOfBuses ((listPartitionFiles exMergeStore "C" 0).flatten)
          total_passengers :=
            specTotalPassengers ((listPartitionFiles exMergeStore "C" 0).flatten)
          total_accidents :=
            specTotalAccidents ((listPartitionFiles exMergeStore "C" 0).flatten)
          average_delay :=
            specAverageDelay ((listPartitionFiles exMergeStore "C" 0).flatten) }) ∧
    get_country_stats_s3 "C" 0 exMergeBucket =
      Except.ok (Option.some
        { number_of_buses := specNumberOfBuses ((s3Frames exMergeBucket "C" 0).flatten)
          total_passengers := specTotalPassengers ((s3Frames exMergeBucket "C" 0).flatten)
          total_accidents := specTotalAccidents ((s3Frames exMergeBucket "C" 0).flatten)
          average_delay := specAverageDelay ((s3Frames exMergeBucket "C" 0).flatten) }) ∧
    (∀ other : LocalStore,
      ((listPartitionFiles other "C" 0).flatten).Perm
          ((listPartitionFiles exMergeStore "C" 0).flatten) →
      get_country_stats_local "C" 0 other = get_country_stats_local "C" 0 exMergeStore) :=
  stats_merge_pooled exMergeStore exMergeBucket "C" 0 (by decide) (by decide)

theorem slashfree_append_inj (xs : List Char) :
    ∀ (ys rest1 rest2 : List Char), '/' ∉ xs → '/' ∉ ys →
      xs ++ '/' :: rest1 = ys ++ '/' :: rest2 → xs = ys ∧ rest1 = rest2 := by
  induction xs with
  | nil =>
    intro ys r1 r2 _ hy h
    cases ys with
    | nil => simpa using h
    | cons y ys =>
      exfalso
      simp only [List.nil_append, List.cons_append, List.cons.injEq] at h
      apply hy
      rw [← h.1]
      exact List.mem_cons_self _ _
  | cons x xs ih =>
    intro ys r1 r2 hx hy h
    cases ys with
    | nil =>
      exfalso
      simp only [List.cons_append, List.nil_append, List.cons.injEq] at h
      apply hx
      rw [h.1]
      exact List.mem_cons_self _ _
    | cons y ys =>
      simp only [List.cons_append, List.cons.injEq] at h
      obtain ⟨hxy, h2⟩ := h
      have hx' : '/' ∉ xs := fun hm => hx (List.mem_cons_of_mem _ hm)
      have hy' : '/' ∉ ys := fun hm => hy (List.mem_cons_of_mem _ hm)
      obtain ⟨e1, e2⟩ := ih ys r1 r2 hx' hy' h2
      exact ⟨by rw [hxy, e1], e2⟩

theorem partitionKey_inj (co1 co2 n1 n2 : String) (d : Int)
    (h1 : '/' ∉ co1.data) (h2 : '/' ∉ co2.data)
    (h : partitionKey co1 d n1 = partitionKey co2 d n2) : co1 = co2 ∧ n1 = n2 := by
  have hd := congrArg String.data h
  unfold partitionKey at hd
  simp only [String.data_append, List.append_assoc, List.singleton_append] at hd
  obtain ⟨e1, e2⟩ := slashfree_append_inj co1.data co2.data _ _ h1 h2 hd
  have e3 := List.append_cancel_left e2
  simp only [List.cons.injEq, true_and] at e3
  have e4 := List.append_cancel_right e3
  simp only [List.cons.injEq, true_and] at e4
  exact ⟨String.ext e1, String.ext e4⟩

/-- C7 counterexample: the claim fails as stated — two cities returned by the
reference service may share one name and country (city names are not unique),
and then their scheduled tasks write to the same partition key. -/
theorem scheduled_keys_collide_on_duplicate_names :
    ¬ List.Pairwise (fun a b => a ≠ b)
      (scheduledKeys [{ id := 1, name := "X", country := "C" },
        { id := 2, name := "X", country := "C" }] 0) := by
  intro h
  simp only [scheduledKeys, List.map_cons, List.map_nil, List.pairwise_cons] at h
  exact h.1 (partitionKey "C" 0 "X") (List.mem_cons_self _ _) rfl

/-- C7 amended: the per-city tasks scheduled by one ingest call write to
pairwise-distinct partition keys provided the listed cities have pairwise
distinct (country, name) pairs and no country name contains the path
separator. -/
theorem distinct_city_pairs_distinct_keys (cities : List City) (requested_date : Int)
    (hnd : (cities.map (fun c => (c.country, c.name))).Nodup)
    (hs : ∀ c ∈ cities, '/' ∉ c.country.data) :
    List.Pairwise (fun a b => a ≠ b) (scheduledKeys cities requested_date) := by
  have hkeys : scheduledKeys cities requested_date =
      (cities.map (fun c => (c.country, c.name))).map
        (fun p => partitionKey p.1 requested_date p.2) := by
    unfold scheduledKeys
    rw [List.map_map]
    rfl
  rw [hkeys]
  refine List.Nodup.map_on ?_ hnd
  intro p1 hp1 p2 hp2 hkey
  obtain ⟨c1, hc1, hc1p⟩ := List.mem_map.mp hp1
  obtain ⟨c2, hc2, hc2p⟩ := List.mem_map.mp hp2
  have hs1 : '/' ∉ p1.1.data := by rw [← hc1p]; exact hs c1 hc1
  have hs2 : '/' ∉ p2.1.data := by rw [← hc2p]; exact hs c2 hc2
  obtain ⟨e1, e2⟩ := partitionKey_inj p1.1 p2.1 p1.2 p2.2 requested_date hs1 hs2 hkey
  obtain ⟨a1, b1⟩ := p1
  obtain ⟨a2, b2⟩ := p2
  simp only at e1 e2
  rw [e1, e2]

/-- Witness for the amended C7: two cities with distinct names. -/
theorem distinct_city_pairs_distinct_keys_witness :
    List.Pairwise (fun a b => a ≠ b)
      (scheduledKeys [{ id := 1, name := "X", country := "C" },
        { id := 2, name := "Y", country := "C" }] 0) :=
  distinct_city_pairs_distinct_keys
    [{ id := 1, name := "X", country := "C" }, { id := 2, name := "Y", country := "C" }] 0
    (by decide) (by decide)

theorem rangeDates_nodup (from_date to_date : Int) :
    (rangeDates from_date to_date).Nodup := by
  unfold rangeDates
  refine List.Nodup.map ?_ (List.nodup_range _)
  intro a b h
  have h2 : (a : Int) = (b : Int) := add_left_cancel h
  exact_mod_cast h2

theorem rangeDates_ne_nil (from_date to_date : Int) (h : from_date ≤ to_date) :
    rangeDates from_date to_date ≠ [] := by
  unfold rangeDates
  intro he
  have hl := congrArg List.length he
  simp only [List.length_map, List.length_range, List.length_nil] at hl
  omega

theorem setInner_append_new (m : DayMap) (k : Int) (v : Option Summary)
    (h : k ∉ m.map Prod.fst) : setInner m k v = m ++ [(k, v)] := by
  induction m with
  | nil => rfl
  | cons kv rest ih =>
    obtain ⟨k', v'⟩ := kv
    simp only [List.map_cons, List.mem_cons, not_or] at h
    simp only [setInner]
    rw [if_neg (fun he => h.1 he.symm), ih h.2]
    rfl

theorem respSet_missing (resp : RangeResp) (c : String) (k : Int) (v : Option Summary)
    (h : c ∉ resp.map Prod.fst) : respSet resp c k v = resp ++ [(c, [(k, v)])] := by
  induction resp with
  | nil => rfl
  | cons kv rest ih =>
    obtain ⟨c', i'⟩ := kv
    simp only [List.map_cons, List.mem_cons, not_or] at h
    simp only [respSet]
    rw [if_neg (fun he => h.1 he.symm), ih h.2]
    rfl

theorem respSet_found (done rest : RangeResp) (c : String) (inner : DayMap)
    (k : Int) (v : Option Summary) (h : c ∉ done.map Prod.fst) :
    respSet (done ++ (c, inner) :: rest) c k v =
      done ++ (c, setInner inner k v) :: rest := by
  induction done with
  | nil => simp [respSet]
  | cons kv dn ih =>
    obtain ⟨c', i'⟩ := kv
    simp only [List.map_cons, List.mem_cons, not_or] at h
    simp only [List.cons_append, respSet]
    rw [if_neg (fun he => h.1 he.symm)]
    exact congrArg (fun l => (c', i') :: l) (ih h.2)

theorem loopCountries_ok (f : String → Int → Except String (Option Summary))
    (d : Int) :
    ∀ (cs : List String) (resp : RangeResp),
      (∀ c ∈ cs, ∃ v, f c d = Except.ok v) →
      loopCountries f d cs resp =
        Except.ok (cs.foldl (fun r c => respSet r c d (okValue (f c d))) resp) := by
  intro cs
  induction cs with
  | nil => intro resp _; rfl
  | cons c cs ih =>
    intro resp hok
    obtain ⟨v, hv⟩ := hok c (List.mem_cons_self _ _)
    simp only [loopCountries, hv, List.foldl_cons, okValue]
    exact ih (respSet resp c d v) (fun c' hc' => hok c' (List.mem_cons_of_mem _ hc'))

theorem foldl_respSet_new (k : Int) (g : String → Option Summary) :
    ∀ (cs : List String) (done : RangeResp), cs.Nodup →
      (∀ c ∈ cs, c ∉ done.map Prod.fst) →
      cs.foldl (fun r c => respSet r c k (g c)) done =
        done ++ cs.map (fun c => (c, [(k, g c)])) := by
  intro cs
  induction cs with
  | nil => intro done _ _; simp
  | cons c cs ih =>
    intro done hnd hmem
    have hnew : ∀ c' ∈ cs, c' ∉ (done ++ [(c, [(k, g c)])]).map Prod.fst := by
      intro c' hc'
      simp only [List.map_append, List.map_cons, List.map_nil, List.mem_append,
        List.mem_cons, List.not_mem_nil, or_false, not_or]
      exact ⟨hmem c' (List.mem_cons_of_mem _ hc'),
        fun he => (List.nodup_cons.mp hnd).1 (he ▸ hc')⟩
    simp only [List.foldl_cons, List.map_cons]
    rw [respSet_missing done c k (g c) (hmem c (List.mem_cons_self _ _)),
      ih (done ++ [(c, [(k, g c)])]) (List.Nodup.of_cons hnd) hnew]
    simp

theorem foldl_respSet_grid (k : Int) (g : String → Option Summary)
    (row : String → DayMap) :
    ∀ (cs : List String) (done : RangeResp), cs.Nodup →
      (∀ c ∈ cs, c ∉ done.map Prod.fst) →
      cs.foldl (fun r c => respSet r c k (g c))
          (done ++ cs.map (fun c => (c, row c))) =
        done ++ cs.map (fun c => (c, setInner (row c) k (g c))) := by
  intro cs
  induction cs with
  | nil => intro done _ _; simp
  | cons c cs ih =>
    intro done hnd hmem
    have hnew : ∀ c' ∈ cs,
        c' ∉ (done ++ [(c, setInner (row c) k (g c))]).map Prod.fst := by
      intro c' hc'
      simp only [List.map_append, List.map_cons, List.map_nil, List.mem_append,
        List.mem_cons, List.not_mem_nil, or_false, not_or]
      exact ⟨hmem c' (List.mem_cons_of_mem _ hc'),
        fun he => (List.nodup_cons.mp hnd).1 (he ▸ hc')⟩
    simp only [List.foldl_cons, List.map_cons]
    rw [respSet_found done (cs.map (fun c => (c, row c))) c (row c) k (g c)
      (hmem c (List.mem_cons_self _ _))]
    rw [show done ++ (c, setInner (row c) k (g c)) :: cs.map (fun c => (c, row c)) =
        (done ++ [(c, setInner (row c) k (g c))]) ++ cs.map (fun c => (c, row c)) from
      by simp]
    rw [ih (done ++ [(c, setInner (row c) k (g c))]) (List.Nodup.of_cons hnd) hnew]
    simp

theorem loopDates_cons_ok (f : String → Int → Except String (Option Summary))
    (cs : List String) (d : Int) (ds : List Int) (resp r : RangeResp)
    (h : loopCountries f d cs resp = Except.ok r) :
    loopDates f cs (d :: ds) resp = loopDates f cs ds r := by
  simp [loopDates, h]

theorem loopDates_grid (f : String → Int → Except String (Option Summary))
    (cs : List String) (hcs : cs.Nodup) :
    ∀ (ds past : List Int), (past ++ ds).Nodup →
      (∀ c ∈ cs, ∀ d ∈ ds, ∃ v, f c d = Except.ok v) →
      loopDates f cs ds
          (cs.map (fun c => (c, past.map (fun d => (d, okValue (f c d)))))) =
        Except.ok
          (cs.map (fun c => (c, (past ++ ds).map (fun d => (d, okValue (f c d)))))) := by
  intro ds
  induction ds with
  | nil =>
    intro past _ _
    simp [loopDates]
  | cons d ds ih =>
    intro past hnd hok
    have hdok : ∀ c ∈ cs, ∃ v, f c d = Except.ok v :=
      fun c hc => hok c hc d (List.mem_cons_self _ _)
    have hdpast : d ∉ past := by
      intro hd
      exact (List.nodup_append.mp hnd).2.2 hd (List.mem_cons_self _ _)
    have hstep : loopCountries f d cs
        (cs.map (fun c => (c, past.map (fun d' => (d', okValue (f c d')))))) =
        Except.ok (cs.map (fun c =>
          (c, (past ++ [d]).map (fun d' => (d', okValue (f c d')))))) := by
      rw [loopCountries_ok f d cs _ hdok]
      refine congrArg Except.ok ?_
      have hbase := foldl_respSet_grid d (fun c => okValue (f c d))
        (fun c => past.map (fun d' => (d', okValue (f c d')))) cs [] hcs (by simp)
      simp only [List.nil_append] at hbase
      rw [hbase]
      refine List.map_congr_left fun c _ => ?_
      rw [setInner_append_new _ _ _ (by
        rw [List.map_map]
        simpa using hdpast)]
      simp
    rw [loopDates_cons_ok f cs d ds _ _ hstep]
    have hih := ih (past ++ [d])
      (by simpa [List.append_assoc] using hnd)
      (fun c hc d' hd' => hok c hc d' (List.mem_cons_of_mem _ hd'))
    rw [hih]
    simp [List.append_assoc]

/-- C8 counterexample: a reversed date range is not rejected — on a store with
data, the endpoint returns a result (the empty mapping) instead of an error. -/
theorem reversed_range_not_rejected :
    country_stats exDayStore 1 0 = Except.ok [] := by rfl

/-- C8 amended: for a reversed range (`from_date > to_date`) the request is not
rejected before iterating: the date iteration is empty and the endpoint
returns the empty mapping as a normal result. -/
theorem reversed_range_returns_empty_map (st : LocalStore) (from_date to_date : Int)
    (h : to_date < from_date) :
    country_stats st from_date to_date = Except.ok [] := by
  have hr : rangeDates from_date to_date = [] := by
    unfold rangeDates
    rw [show (to_date - from_date + 1).toNat = 0 from by omega]
    rfl
  unfold country_stats
  rw [hr]
  rfl

/-- Witness for the amended C8: an empty store with from = 1, to = 0. -/
theorem reversed_range_returns_empty_map_witness :
    country_stats [] 1 0 = Except.ok [] :=
  reversed_range_returns_empty_map [] 1 0 (by decide)

/-- C2 counterexample: with data only on day 0, the range [0, 1] produces a
mapping in which day 1 — whose per-day aggregation is absent — is still
present as a key, bound to the empty per-day value; the claim says such a
pair contributes no entry. -/
theorem range_result_keeps_empty_day :
    country_stats exDayStore 0 1 =
      Except.ok [("A", [(0, Option.some (frameSummary [exRecA])), (1, Option.none)])] := by
  rfl

/-- C2 amended: the range result is a dense grid, not sparse — provided no
per-day call raises, every (country, date) pair of the query grid contributes
an entry, in range order: pairs with data map to their Summary and pairs whose
per-day aggregation is absent map to the empty per-day value. -/
theorem range_result_dense_grid (st : LocalStore) (from_date to_date : Int)
    (hle : from_date ≤ to_date)
    (hok : ∀ c ∈ countriesOf st, ∀ d ∈ rangeDates from_date to_date,
      ∃ v, get_country_stats_local c d st = Except.ok v) :
    country_stats st from_date to_date =
      Except.ok ((countriesOf st).map (fun c =>
        (c, (rangeDates from_date to_date).map (fun d => (d, dayValue st c d))))) := by
  have hcs : (countriesOf st).Nodup := List.nodup_dedup _
  have hndr : (rangeDates from_date to_date).Nodup := rangeDates_nodup _ _
  cases hds : rangeDates from_date to_date with
  | nil => exact absurd hds (rangeDates_ne_nil _ _ hle)
  | cons d0 rest =>
    rw [hds] at hok hndr
    unfold country_stats
    rw [hds]
    have hd0ok : ∀ c ∈ countriesOf st, ∃ v,
        get_country_stats_local c d0 st = Except.ok v :=
      fun c hc => hok c hc d0 (List.mem_cons_self _ _)
    have hstep1 : loopCountries (fun c d => get_country_stats_local c d st) d0
        (countriesOf st) [] =
        Except.ok ((countriesOf st).map (fun c =>
          (c, [d0].map (fun d => (d, okValue (get_country_stats_local c d st)))))) := by
      rw [loopCountries_ok _ d0 _ _ hd0ok]
      refine congrArg Except.ok ?_
      have hbase := foldl_respSet_new d0
        (fun c => okValue (get_country_stats_local c d0 st)) (countriesOf st) []
        hcs (by simp)
      simpa using hbase
    rw [loopDates_cons_ok _ _ _ _ _ _ hstep1]
    have hgrid := loopDates_grid (fun c d => get_country_stats_local c d st)
      (countriesOf st) hcs rest [d0] (by simpa using hndr)
      (fun c hc d hd => hok c hc d (List.mem_cons_of_mem _ hd))
    rw [hgrid]
    rfl

/-- Witness for the amended C2: `exDayStore` over the range [0, 1]. -/
theorem range_result_dense_grid_witness :
    country_stats exDayStore 0 1 =
      Except.ok ((countriesOf exDayStore).map (fun c =>
        (c, (rangeDates 0 1).map (fun d => (d, dayValue exDayStore c d))))) :=
  range_result_dense_grid exDayStore 0 1 (by decide) (by
    intro c hc d hd
    rw [show countriesOf exDayStore = ["A"] from by decide] at hc
    rw [show rangeDates 0 1 = [0, 1] from by decide] at hd
    simp only [List.mem_singleton] at hc
    subst hc
    simp only [List.mem_cons, List.mem_singleton, List.not_mem_nil, or_false] at hd
    rcases hd with rfl | rfl
    · exact ⟨Option.some (frameSummary [exRecA]), rfl⟩
    · exact ⟨Option.none, rfl⟩)

end BusServer
